import Mathlib

/-!
Verification development for the behavior-tree inspector of the simula
repository (crates/simula_behavior/src/inspector/mod.rs).

The node-graph container is the one of the egui_node_graph library: slot maps
for nodes, input params and output params, and a connection map keyed by input
id. Slot maps are embedded as association lists with natural-number keys; the
connection map (a SecondaryMap keyed by input id, iterated in slot order) is
embedded as an association list kept sorted by input id.

The crate modules inspector/graph.rs and protocol.rs are not among the sources;
the data declarations taken from them (port data types, execution-state tags,
the Root node template's ports, protocol message shapes) are modelled from the
spec, and are marked as such below.  All program logic is translated from
inspector/mod.rs.
-/

set_option maxHeartbeats 1000000

namespace Inspector

/-- Behavior node categories; the handler only compares against `Composite`. -/
inductive BehaviorType where
  | Composite
  | Decorator
  | Action
deriving DecidableEq

/-- Port data type tag. Modelled from the spec: `Flow` is the only type used
for tree edges; other port types may exist for non-tree data, represented here
by the single variant `Value`. -/
inductive BehaviorDataType where
  | Flow
  | Value
deriving DecidableEq

/-- The BehaviorFactory trait: every behavior payload reports its category. -/
class BehaviorFactory (T : Type) where
  typ : T → BehaviorType

/-- Execution-state tag displayed on a node. Modelled from the spec:
idle / running / success / failure. -/
inductive BehaviorState where
  | idle
  | running
  | success
  | failure
deriving DecidableEq

/-- Per-node user payload: the Root marker or a behavior payload. -/
inductive BehaviorNodeTemplate (T : Type) where
  | Root
  | Behavior (data : T)
deriving DecidableEq

/-- Node user data: payload plus the displayed execution state overlay. -/
structure BehaviorNodeData (T : Type) where
  data : BehaviorNodeTemplate T
  state : Option BehaviorState
deriving DecidableEq

/-- A graph node: label, user data, and named, ordered input/output port
lists (each entry is a port name and the port id). -/
structure Node (T : Type) where
  label : String
  user_data : BehaviorNodeData T
  inputs : List (String × Nat)
  outputs : List (String × Nat)
deriving DecidableEq

/-- An input port: owning node back-reference and data type tag. -/
structure InputParam where
  node : Nat
  typ : BehaviorDataType
deriving DecidableEq

/-- An output port: owning node back-reference and data type tag. -/
structure OutputParam where
  node : Nat
  typ : BehaviorDataType
deriving DecidableEq

/-- The node-graph container: nodes, input params, output params (slot maps
keyed by id) and the connection map from input id to the output id feeding
it. -/
structure Graph (T : Type) where
  nodes : List (Nat × Node T)
  inputs : List (Nat × InputParam)
  outputs : List (Nat × OutputParam)
  connections : List (Nat × Nat)
deriving DecidableEq

/-- A behavior tree node: `Behavior(label, payload, children)` in the crate. -/
inductive Behavior (T : Type) where
  | mk (label : String) (data : T) (children : List (Behavior T))

def Behavior.label : Behavior T → String
  | .mk l _ _ => l

def Behavior.data : Behavior T → T
  | .mk _ d _ => d

def Behavior.children : Behavior T → List (Behavior T)
  | .mk _ _ c => c

/-- A telemetry tree node: `BehaviorTelemetry(state, snapshot, children)`.
Modelled from the spec: execution-state tag, optional behavior snapshot,
ordered children. -/
inductive BehaviorTelemetry (T : Type) where
  | mk (state : BehaviorState) (data : Option T) (children : List (BehaviorTelemetry T))

def BehaviorTelemetry.state : BehaviorTelemetry T → BehaviorState
  | .mk s _ _ => s

def BehaviorTelemetry.data : BehaviorTelemetry T → Option T
  | .mk _ d _ => d

def BehaviorTelemetry.children : BehaviorTelemetry T → List (BehaviorTelemetry T)
  | .mk _ _ c => c

/-- The connection find shared by the traversals and get_root_child: the first
connection (in slot order) whose output is `outputId` and whose input param is
Flow-typed; returns the node owning that input.  The source indexes
`graph.inputs[input_id]` inside the filter, which panics on a stale input id;
on well-formed graphs the lookup always succeeds, and a stale entry is treated
as a non-match here. -/
def flowChildOfOutput (g : Graph T) (outputId : Nat) : Option Nat :=
  (g.connections.find? fun c =>
      c.2 == outputId &&
        ((g.inputs.lookup c.1).map InputParam.typ == some BehaviorDataType.Flow)).bind
    fun c => (g.inputs.lookup c.1).map InputParam.node

/-- First node whose payload is the Root marker, in slot order. -/
def findRootNode (g : Graph T) : Option (Nat × Node T) :=
  g.nodes.find? fun p =>
    match p.2.user_data.data with
    | .Root => true
    | _ => false

/-- get_root_child: the first Flow-connected child of the first Root node's
outputs, if any. -/
def get_root_child (g : Graph T) : Option Nat :=
  match findRootNode g with
  | none => none
  | some p => p.2.outputs.findSome? fun o => flowChildOfOutput g o.2

/-- The connected Flow children of a node, one per connected output port, in
port-declaration order (disconnected outputs contribute nothing). -/
def nodeFlowChildren (g : Graph T) (node : Node T) : List Nat :=
  node.outputs.filterMap fun o => flowChildOfOutput g o.2

/-- Outcomes of graph_to_behavior other than a built tree.
`expectedBehavior` is the `panic!("Expected behavior node")` on a Root payload;
`staleNode` is the slot-map indexing panic on a missing node id; `fuel` is an
artifact of the explicit recursion budget of the embedding (the source
recursion is unbounded). -/
inductive GErr where
  | expectedBehavior
  | staleNode
  | fuel
deriving DecidableEq

/-- Children loop of graph_to_behavior: recurse (via `f`) into each connected
child in order, propagating the first failure. -/
def graphToBehaviorKids (f : Nat → Except GErr (Behavior T)) :
    List Nat → Except GErr (List (Behavior T))
  | [] => .ok []
  | c :: rest =>
    match f c with
    | .error e => .error e
    | .ok b =>
      match graphToBehaviorKids f rest with
      | .error e => .error e
      | .ok bs => .ok (b :: bs)

/-- graph_to_behavior: build a behavior tree from the graph, recursing through
the connected Flow outputs in port order.  `fuel` bounds the recursion depth;
executions on which the source recursion would exceed any finite depth are
exactly those returning `.error .fuel` for every budget. -/
def graph_to_behavior (g : Graph T) (nodeId : Nat) : Nat → Except GErr (Behavior T)
  | 0 => .error .fuel
  | fuel + 1 =>
    match g.nodes.lookup nodeId with
    | none => .error .staleNode
    | some node =>
      match node.user_data.data with
      | .Root => .error .expectedBehavior
      | .Behavior b =>
        match graphToBehaviorKids (fun c => graph_to_behavior g c fuel)
            (nodeFlowChildren g node) with
        | .error e => .error e
        | .ok kids => .ok (.mk node.label b kids)

/-- Overwrite a node's user data (payload and displayed state), leaving label,
ports and everything else unchanged. -/
def setNodeUserData (g : Graph T) (nodeId : Nat) (d : BehaviorNodeData T) :
    Graph T :=
  { g with
    nodes := g.nodes.map fun p =>
      if p.1 == nodeId then (p.1, { p.2 with user_data := d }) else p }

mutual
/-- behavior_to_graph: overwrite the target node's payload with the behavior
node's payload, clear its displayed state, then recurse pairwise over the
graph node's connected Flow children zipped with the behavior's children.  The
source panics on a stale node id; the embedding returns the graph unchanged
there (the case cannot arise on well-formed graphs). -/
def behavior_to_graph (g : Graph T) (nodeId : Nat) (behavior : Behavior T) :
    Graph T :=
  match behavior with
  | .mk _ d cs =>
    match g.nodes.lookup nodeId with
    | none => g
    | some node =>
      let g1 := setNodeUserData g nodeId { data := .Behavior d, state := none }
      behaviorToGraphPairs g1 (nodeFlowChildren g1 node) cs
termination_by sizeOf behavior

/-- Zip loop of behavior_to_graph: stops at the shorter of the two lists. -/
def behaviorToGraphPairs (g : Graph T) (kids : List Nat)
    (cs : List (Behavior T)) : Graph T :=
  match kids, cs with
  | k :: kids', c :: cs' => behaviorToGraphPairs (behavior_to_graph g k c) kids' cs'
  | _, _ => g
termination_by sizeOf cs
end

mutual
/-- behavior_telemerty_to_graph (source spelling): if the telemetry node
carries a behavior snapshot, overwrite the graph node's payload and stamp its
displayed state with the telemetry state tag; always recurse pairwise over the
connected Flow children zipped with the telemetry children.  The source panics
on a stale node id; the embedding returns the graph unchanged there. -/
def behavior_telemerty_to_graph (g : Graph T) (nodeId : Nat)
    (telemetry : BehaviorTelemetry T) : Graph T :=
  match telemetry with
  | .mk st data cs =>
    match g.nodes.lookup nodeId with
    | none => g
    | some node =>
      match data with
      | some b =>
        let g1 := setNodeUserData g nodeId { data := .Behavior b, state := some st }
        behaviorTelemetryPairs g1 (nodeFlowChildren g1 node) cs
      | none => behaviorTelemetryPairs g (nodeFlowChildren g node) cs
termination_by sizeOf telemetry

/-- Zip loop of behavior_telemerty_to_graph: stops at the shorter list. -/
def behaviorTelemetryPairs (g : Graph T) (kids : List Nat)
    (cs : List (BehaviorTelemetry T)) : Graph T :=
  match kids, cs with
  | k :: kids', c :: cs' =>
    behaviorTelemetryPairs (behavior_telemerty_to_graph g k c) kids' cs'
  | _, _ => g
termination_by sizeOf cs
end

/-- The topology of a graph: everything except the per-node user data — node
ids, labels and port lists, the input and output param stores, and the
connection map. -/
def graphShape (g : Graph T) :
    List (Nat × String × List (String × Nat) × List (String × Nat)) ×
      List (Nat × InputParam) × List (Nat × OutputParam) × List (Nat × Nat) :=
  (g.nodes.map fun p => (p.1, p.2.label, p.2.inputs, p.2.outputs),
   g.inputs, g.outputs, g.connections)

/-- Insert a binding into the connection map (keyed by input id, kept in slot
order; inserting over an existing key replaces its value). -/
def insertConn : List (Nat × Nat) → Nat → Nat → List (Nat × Nat)
  | [], i, o => [(i, o)]
  | c :: rest, i, o =>
    if i < c.1 then (i, o) :: c :: rest
    else if i == c.1 then (i, o) :: rest
    else c :: insertConn rest i o

/-- The node-graph widget completes a drag by inserting the new connection
(keyed by the input id) before emitting ConnectEventEnded. Modelled from the
spec: the connection map is literally keyed by input identity, so an input has
at most one incoming connection. -/
def insertConnection (g : Graph T) (inputId outputId : Nat) : Graph T :=
  { g with connections := insertConn g.connections inputId outputId }

/-- A disconnect event: the widget removes the connection keyed by the input
id; the DisconnectEvent response falls into the wildcard arm of the response
loop in window_ui, which does nothing. -/
def disconnectEvent (g : Graph T) (inputId : Nat) : Graph T :=
  { g with connections := g.connections.filter fun c => c.1 != inputId }

/-- Whether any connection drives from this output
(`connections.iter().filter(..).count() > 0` in the source). -/
def isConnected (g : Graph T) (outputId : Nat) : Bool :=
  g.connections.any fun c => c.2 == outputId

/-- A fresh output id: one more than every existing key. -/
def freshOutputId (g : Graph T) : Nat :=
  (g.outputs.map Prod.fst).foldl max 0 + 1

/-- add_output_param of the graph container (the container library is not among
the sources). Modelled from the spec: insertion returns a fresh stable id for
the new port and appends the named port to the owning node's output list. -/
def add_output_param (g : Graph T) (nodeId : Nat) (name : String)
    (typ : BehaviorDataType) : Graph T :=
  let oid := freshOutputId g
  { g with
    outputs := g.outputs ++ [(oid, { node := nodeId, typ := typ })],
    nodes := g.nodes.map fun p =>
      if p.1 == nodeId then (p.1, { p.2 with outputs := p.2.outputs ++ [(name, oid)] })
      else p }

/-- remove_output_param of the graph container (the container library is not
among the sources). Modelled from the spec: removal of an output port removes
it from the owning node's port list and removes any connections referencing
it.  Total here: a stale id leaves the graph unchanged (the source panics,
and the handler only passes ids read from a live node). -/
def remove_output_param (g : Graph T) (param : Nat) : Graph T :=
  match g.outputs.lookup param with
  | none => g
  | some op =>
    { g with
      nodes := g.nodes.map fun p =>
        if p.1 == op.node then
          (p.1, { p.2 with outputs := p.2.outputs.filter fun o => o.2 != param })
        else p,
      outputs := g.outputs.filter fun q => q.1 != param,
      connections := g.connections.filter fun c => c.2 != param }

/-- The unused (unconnected) outputs of a node, in port order, as collected by
the ConnectEventEnded arm. -/
def unusedOutputs (g : Graph T) (node : Node T) : List Nat :=
  (node.outputs.filter fun o => !(isConnected g o.2)).map Prod.snd

/-- Step 1 of the ConnectEventEnded arm: collect and remove every connection
sharing the completed output whose input differs from the completed input. -/
def removeOtherInputs (g : Graph T) (outputId inputId : Nat) : Graph T :=
  { g with
    connections := g.connections.filter fun c => !(c.2 == outputId && c.1 != inputId) }

/-- Step 2 of the ConnectEventEnded arm, for a Composite owner node: collect
the unused outputs; if none, append a fresh Flow output; then pop and remove
unused outputs from the back while more than one remains. -/
def adjustCompositeOutputs (g : Graph T) (nodeId : Nat) (node : Node T) : Graph T :=
  let unused := unusedOutputs g node
  let g2 := if unused.length == 0 then add_output_param g nodeId "B" .Flow else g
  (unused.drop 1).reverse.foldl remove_output_param g2

/-- The unconnected Flow-typed output ports of a node: the invariant the
Connection-Arity Maintainer is claimed to keep at exactly one for Composite
nodes. -/
def unconnectedFlowOutputs (g : Graph T) (node : Node T) : List Nat :=
  (node.outputs.filter fun o =>
    ((g.outputs.lookup o.2).map OutputParam.typ == some BehaviorDataType.Flow) &&
      !(isConnected g o.2)).map Prod.snd

/-- The ConnectEventEnded arm of the response loop in window_ui: first remove
every other connection driven by the same output, then, if the output's owner
is a Composite behavior node, re-balance its outputs so exactly one is left
unconnected.  `none` marks the executions on which the source panics (stale
output id or node id). -/
def connectEventEnded [BehaviorFactory T] (g : Graph T) (outputId inputId : Nat) :
    Option (Graph T) :=
  let g1 := removeOtherInputs g outputId inputId
  match g1.outputs.lookup outputId with
  | none => none
  | some op =>
    match g1.nodes.lookup op.node with
    | none => none
    | some node =>
      match node.user_data.data with
      | .Root => some g1
      | .Behavior b =>
        if BehaviorFactory.typ b == BehaviorType.Composite then
          some (adjustCompositeOutputs g1 op.node node)
        else some g1

/-- A complete connect event: the widget inserts the connection, then the
response loop handles ConnectEventEnded. -/
def connectEvent [BehaviorFactory T] (g : Graph T) (outputId inputId : Nat) :
    Option (Graph T) :=
  connectEventEnded (insertConnection g inputId outputId) outputId inputId

/-- The per-file lifecycle states of the inspector session. -/
inductive BehaviorInspectorState where
  | New
  | Editing
  | Load
  | Loading
  | Save
  | Saving
  | Run
  | Starting
  | Running
  | Stop
  | Stopping
deriving DecidableEq

/-- A node position.  The source stores egui float positions; the only
position this subsystem ever writes is the origin, embedded exactly as an
integer pair. -/
structure NodePos where
  x : Int
  y : Int
deriving DecidableEq

/-- BehaviorEditorState: the editable graph together with node positions and
draw order (pan/zoom is GUI-only and out of scope). -/
structure BehaviorEditorState (T : Type) where
  graph : Graph T
  node_positions : List (Nat × NodePos)
  node_order : List Nat

/-- One inspector item per known behavior file. -/
structure BehaviorInspectorItem (T : Type) where
  entity : Option Nat
  name : String
  state : BehaviorInspectorState
  collapsed : Bool
  behavior : Option (Behavior T)

/-- Client-to-server protocol messages. Modelled from the spec: LoadFile,
SaveFile, Run, Stop (file ids and file data are opaque; ids are naturals and
file data strings here). -/
inductive BehaviorProtocolClient (T : Type) where
  | LoadFile (fileId : Nat)
  | SaveFile (fileId : Nat) (name : String) (data : String)
  | Run (fileId : Nat) (behavior : Behavior T)
  | Stop (fileId : Nat)

/-- Server-to-client protocol messages. Modelled from the spec: FileNames,
File, FileSaved, Started, Stopped, Telemetry. -/
inductive BehaviorProtocolServer (T : Type) where
  | FileNames (files : List (Nat × String))
  | File (fileId : Nat) (data : String)
  | FileSaved (fileId : Nat)
  | Started (fileId : Nat)
  | Stopped (fileId : Nat)
  | Telemetry (fileId : Nat) (telemetry : BehaviorTelemetry T)

/-- Insert or replace a binding in an association list (the HashMap and ECS
stores of the update system). -/
def upsert : List (Nat × α) → Nat → α → List (Nat × α)
  | [], k, v => [(k, v)]
  | p :: rest, k, v => if p.1 == k then (k, v) :: rest else p :: upsert rest k v

/-- The state the update system acts on: the item map and selection of the
BehaviorInspector resource, the ECS store of editor-state components keyed by
entity, plus the protocol messages sent and the errors logged so far this
tick. -/
structure InspectorWorld (T : Type) where
  items : List (Nat × BehaviorInspectorItem T)
  entities : List (Nat × BehaviorEditorState T)
  selected : Option Nat
  sent : List (BehaviorProtocolClient T)
  errors : List String

/-- The editor state built by the New branch of update: a single Root node at
the origin.  The Root template's ports (inspector/graph.rs is not among the
sources) are modelled from the spec: the Root anchor has one Flow output port
and no inputs. -/
def newEditorState (T : Type) : BehaviorEditorState T :=
  { graph :=
      { nodes :=
          [(0, { label := "Root", user_data := { data := .Root, state := none },
                 inputs := [], outputs := [("B", 0)] })],
        inputs := [],
        outputs := [(0, { node := 0, typ := .Flow })],
        connections := [] },
    node_positions := [(0, { x := 0, y := 0 })],
    node_order := [0] }

/-- The selected-item part of the update system (the Load/New/Save/Run/Stop
branches), one tick.  `freshEntity` stands for the entity id allocated by
`commands.spawn`; `ser` for the RON serializer (an external collaborator,
`none` embeds a serialization failure); `fuel` is the recursion budget passed
through to graph_to_behavior.  In the Run branch the source panics if
graph_to_behavior panics; that execution is embedded as leaving the world
unchanged and cannot arise for editor-built graphs. -/
def updateSelectedTick [BehaviorFactory T] (w : InspectorWorld T)
    (freshEntity : Nat) (ser : BehaviorEditorState T → Option String)
    (fuel : Nat) : InspectorWorld T :=
  match w.selected with
  | none => w
  | some fid =>
    match w.items.lookup fid with
    | none => w
    | some item =>
      match item.state with
      | .Load =>
        { w with
          items := upsert w.items fid { item with state := .Loading },
          sent := w.sent ++ [.LoadFile fid] }
      | .New =>
        { w with
          entities := (freshEntity, newEditorState T) :: w.entities,
          items := upsert w.items fid
            { item with entity := some freshEntity, state := .Editing } }
      | .Save =>
        match item.entity with
        | none =>
          { w with
            items := upsert w.items fid { item with state := .New },
            errors := w.errors ++ ["No entity for behavior"] }
        | some e =>
          match w.entities.lookup e with
          | none =>
            { w with
              items := upsert w.items fid { item with state := .New },
              errors := w.errors ++ ["No graph editor state for behavior"] }
          | some editor =>
            match ser editor with
            | none =>
              { w with
                items := upsert w.items fid { item with state := .Editing },
                errors := w.errors ++ ["Failed to serialize behavior"] }
            | some fileData =>
              { w with
                items := upsert w.items fid { item with state := .Saving },
                sent := w.sent ++ [.SaveFile fid item.name fileData] }
      | .Run =>
        match item.entity with
        | none => w
        | some e =>
          match w.entities.lookup e with
          | none => w
          | some editor =>
            match findRootNode editor.graph with
            | none => w
            | some _ =>
              match get_root_child editor.graph with
              | none =>
                { w with
                  items := upsert w.items fid { item with state := .Editing },
                  errors := w.errors ++ ["No root child"] }
              | some rootChild =>
                match graph_to_behavior editor.graph rootChild fuel with
                | .error _ => w
                | .ok b =>
                  { w with
                    items := upsert w.items fid
                      { item with behavior := some b, state := .Starting },
                    sent := w.sent ++ [.Run fid b] }
      | .Stop =>
        { w with
          items := upsert w.items fid { item with state := .Stopping },
          sent := w.sent ++ [.Stop fid] }
      | _ => w

/-- One server message, as handled by the receive loop of the update system.
`freshEntity` stands for the entity id allocated by `commands.spawn` in the
File arm; `de` for the RON deserializer (`none` embeds a decode failure).
The result is `none` exactly when the source panics: the File arm unwraps the
deserializer result. -/
def handleServerMsg [BehaviorFactory T] (w : InspectorWorld T)
    (freshEntity : Nat) (de : String → Option (BehaviorEditorState T)) :
    BehaviorProtocolServer T → Option (InspectorWorld T)
  | .FileNames files =>
    some
      { w with
        items := files.foldl (fun acc p =>
          if (acc.lookup p.1).isSome then acc
          else acc ++ [(p.1,
            { entity := none, name := p.2, state := .Load, collapsed := false,
              behavior := none })]) w.items }
  | .File fid fileData =>
    match w.items.lookup fid with
    | none => some w
    | some item =>
      match item.state with
      | .Loading =>
        match de fileData with
        | none => none
        | some editor =>
          some
            { w with
              entities := (freshEntity, editor) :: w.entities,
              items := upsert w.items fid
                { item with entity := some freshEntity, state := .Editing } }
      | _ => some w
  | .FileSaved fid =>
    match w.items.lookup fid with
    | none => some { w with errors := w.errors ++ ["Unexpected file saved"] }
    | some item =>
      match item.state with
      | .Saving =>
        some { w with items := upsert w.items fid { item with state := .Editing } }
      | _ => some w
  | .Started fid =>
    match w.items.lookup fid with
    | none => some { w with errors := w.errors ++ ["Unexpected behavior started"] }
    | some item =>
      match item.state with
      | .Starting =>
        some { w with items := upsert w.items fid { item with state := .Running } }
      | _ => some w
  | .Stopped fid =>
    match w.items.lookup fid with
    | none => some { w with errors := w.errors ++ ["Unexpected behavior stopped"] }
    | some item =>
      let w1 :=
        match item.behavior, item.entity with
        | some b, some e =>
          match w.entities.lookup e with
          | some editor =>
            match get_root_child editor.graph with
            | some rc =>
              { w with
                entities := upsert w.entities e
                  { editor with graph := behavior_to_graph editor.graph rc b } }
            | none => w
          | none => w
        | _, _ => w
      match item.state with
      | .Stopping =>
        some { w1 with items := upsert w1.items fid { item with state := .Editing } }
      | _ => some w1
  | .Telemetry fid telemetry =>
    match w.items.lookup fid with
    | none => some { w with errors := w.errors ++ ["Unexpected behavior telemetry"] }
    | some item =>
      match item.state with
      | .Running =>
        match item.entity with
        | none => some w
        | some e =>
          match w.entities.lookup e with
          | none => some w
          | some editor =>
            match get_root_child editor.graph with
            | none => some { w with errors := w.errors ++ ["No root child"] }
            | some rc =>
              some
                { w with
                  entities := upsert w.entities e
                    { editor with
                      graph := behavior_telemerty_to_graph editor.graph rc telemetry } }
      | _ => some w

/-- The file id and gating state a server message is applied under: File is
applied in Loading, FileSaved in Saving, Started in Starting, Telemetry in
Running (FileNames and Stopped are not gated this way). -/
def gatingState : BehaviorProtocolServer T → Option (Nat × BehaviorInspectorState)
  | .File fid _ => some (fid, .Loading)
  | .FileSaved fid => some (fid, .Saving)
  | .Started fid => some (fid, .Starting)
  | .Telemetry fid _ => some (fid, .Running)
  | _ => none

/-- A minimal concrete behavior payload set, used to evaluate the model on
concrete graphs: one Composite kind and one Action kind. -/
inductive TestBehavior where
  | sel
  | act
deriving DecidableEq

instance : BehaviorFactory TestBehavior where
  typ t :=
    match t with
    | .sel => .Composite
    | .act => .Action

def sampleRootChild : Graph TestBehavior :=
  { nodes :=
      [(0, { label := "A", user_data := { data := .Behavior .act, state := none },
             inputs := [], outputs := [("B", 10)] }),
       (1, { label := "Root", user_data := { data := .Root, state := none },
             inputs := [("A", 20)], outputs := [] })],
    inputs := [(20, { node := 1, typ := .Flow })],
    outputs := [(10, { node := 0, typ := .Flow })],
    connections := [(20, 10)] }

def sampleComposite : Graph TestBehavior :=
  { nodes :=
      [(1, { label := "S", user_data := { data := .Behavior .sel, state := none },
             inputs := [], outputs := [("B", 10), ("B", 11)] }),
       (2, { label := "C", user_data := { data := .Behavior .act, state := none },
             inputs := [("A", 20)], outputs := [] }),
       (3, { label := "D", user_data := { data := .Behavior .act, state := none },
             inputs := [("A", 21)], outputs := [] })],
    inputs := [(20, { node := 2, typ := .Flow }), (21, { node := 3, typ := .Flow })],
    outputs := [(10, { node := 1, typ := .Flow }), (11, { node := 1, typ := .Flow })],
    connections := [(20, 10)] }

/-- The graph produced by completing a connection from output 11 into input 21
on `sampleComposite`: input 21 now drives from output 11, and the Composite
owner got a fresh unconnected Flow output 12. -/
def sampleCompositeConnected : Graph TestBehavior :=
  { nodes :=
      [(1, { label := "S", user_data := { data := .Behavior .sel, state := none },
             inputs := [], outputs := [("B", 10), ("B", 11), ("B", 12)] }),
       (2, { label := "C", user_data := { data := .Behavior .act, state := none },
             inputs := [("A", 20)], outputs := [] }),
       (3, { label := "D", user_data := { data := .Behavior .act, state := none },
             inputs := [("A", 21)], outputs := [] })],
    inputs := [(20, { node := 2, typ := .Flow }), (21, { node := 3, typ := .Flow })],
    outputs := [(10, { node := 1, typ := .Flow }), (11, { node := 1, typ := .Flow }),
                (12, { node := 1, typ := .Flow })],
    connections := [(20, 10), (21, 11)] }

/-- One parent-to-child step of the recursion in the three traversals: node
`n` has an output port whose first Flow-typed connection leads into a port of
node `c`. -/
def FlowEdge (g : Graph T) (n c : Nat) : Prop :=
  ∃ node o, g.nodes.lookup n = some node ∧ o ∈ node.outputs ∧
    flowChildOfOutput g o.2 = some c

/-- The nodes reached from a starting node by following Flow edges — the nodes
the recursive traversals may visit. -/
inductive ReachableFrom (g : Graph T) : Nat → Nat → Prop where
  | refl (n : Nat) : ReachableFrom g n n
  | head {n c m : Nat} : FlowEdge g n c → ReachableFrom g c m →
      ReachableFrom g n m

mutual
/-- The claimed description of graph_to_behavior, as a relation: the result is
a tree node carrying the graph node's behavior payload and label, with one
child per connected Flow output port in port-declaration order, obtained by
recursing into the node owning the connected input; a disconnected output
contributes no child. -/
inductive GraphBehaviorRel (g : Graph T) : Nat → Behavior T → Prop where
  | mk : ∀ {n : Nat} {node : Node T} {b : T} {ts : List (Behavior T)},
      g.nodes.lookup n = some node →
      node.user_data.data = .Behavior b →
      GraphBehaviorChildrenRel g (nodeFlowChildren g node) ts →
      GraphBehaviorRel g n (.mk node.label b ts)

/-- List-wise form of `GraphBehaviorRel`: one tree per child node, in order. -/
inductive GraphBehaviorChildrenRel (g : Graph T) :
    List Nat → List (Behavior T) → Prop where
  | nil : GraphBehaviorChildrenRel g [] []
  | cons : ∀ {c : Nat} {cs : List Nat} {t : Behavior T} {ts : List (Behavior T)},
      GraphBehaviorRel g c t →
      GraphBehaviorChildrenRel g cs ts →
      GraphBehaviorChildrenRel g (c :: cs) (t :: ts)
end

/-- A one-node graph with no ports: the smallest graph on which the traversals
run. -/
def sampleLeafGraph : Graph TestBehavior :=
  { nodes := [(0, { label := "A", user_data := { data := .Behavior .act, state := none },
                    inputs := [], outputs := [] })],
    inputs := [],
    outputs := [],
    connections := [] }

/-! ## Connection membership lemmas for the connect-event handler -/

theorem mem_insertConn_self (l : List (Nat × Nat)) (i o : Nat) :
    (i, o) ∈ insertConn l i o := by
  induction l with
  | nil => simp [insertConn]
  | cons c rest ih =>
    simp only [insertConn]
    split
    · exact List.mem_cons_self _ _
    · split
      · exact List.mem_cons_self _ _
      · exact List.mem_cons_of_mem _ ih

theorem conn_mem_of_mem_remove {g : Graph T} {u : Nat} {c : Nat × Nat}
    (h : c ∈ (remove_output_param g u).connections) : c ∈ g.connections := by
  unfold remove_output_param at h
  split at h
  · exact h
  · exact (List.mem_filter.mp h).1

theorem conn_mem_remove_of_mem {g : Graph T} {u : Nat} {c : Nat × Nat}
    (h : c ∈ g.connections) (hne : c.2 ≠ u) :
    c ∈ (remove_output_param g u).connections := by
  unfold remove_output_param
  split
  · exact h
  · exact List.mem_filter.mpr ⟨h, by simpa using hne⟩

theorem conn_mem_of_mem_foldl_remove {us : List Nat} {g : Graph T} {c : Nat × Nat}
    (h : c ∈ (us.foldl remove_output_param g).connections) : c ∈ g.connections := by
  induction us generalizing g with
  | nil => simpa using h
  | cons u rest ih => exact conn_mem_of_mem_remove (ih h)

theorem conn_mem_foldl_remove_of_mem {us : List Nat} {g : Graph T} {c : Nat × Nat}
    (h : c ∈ g.connections) (hne : ∀ u ∈ us, c.2 ≠ u) :
    c ∈ (us.foldl remove_output_param g).connections := by
  induction us generalizing g with
  | nil => simpa using h
  | cons u rest ih =>
    exact ih (conn_mem_remove_of_mem h (hne u (by simp)))
      (fun v hv => hne v (List.mem_cons_of_mem _ hv))

theorem not_connected_of_mem_unused {g : Graph T} {node : Node T} {u : Nat}
    (h : u ∈ unusedOutputs g node) : isConnected g u = false := by
  unfold unusedOutputs at h
  rcases List.mem_map.mp h with ⟨o, ho, rfl⟩
  have h2 := (List.mem_filter.mp ho).2
  simpa using h2

theorem conn_mem_of_mem_adjust {g : Graph T} {n : Nat} {node : Node T} {c : Nat × Nat}
    (h : c ∈ (adjustCompositeOutputs g n node).connections) : c ∈ g.connections := by
  unfold adjustCompositeOutputs at h
  have h2 := conn_mem_of_mem_foldl_remove h
  split at h2
  · exact h2
  · exact h2

theorem conn_mem_adjust_of_mem {g : Graph T} {n : Nat} {node : Node T} {c : Nat × Nat}
    (h : c ∈ g.connections) : c ∈ (adjustCompositeOutputs g n node).connections := by
  unfold adjustCompositeOutputs
  have hconn : isConnected g c.2 = true := by
    unfold isConnected
    exact List.any_eq_true.mpr ⟨c, h, by simp⟩
  apply conn_mem_foldl_remove_of_mem
  · split
    · exact h
    · exact h
  · intro u hu heq
    have hu2 : u ∈ unusedOutputs g node :=
      List.mem_of_mem_drop (List.mem_reverse.mp hu)
    have h3 := not_connected_of_mem_unused hu2
    rw [heq] at hconn
    rw [hconn] at h3
    exact Bool.noConfusion h3

theorem connectEventEnded_conn_iff [BehaviorFactory T] {g g' : Graph T}
    {outputId inputId : Nat}
    (hmem : (inputId, outputId) ∈ g.connections)
    (h : connectEventEnded g outputId inputId = some g') (i : Nat) :
    ((i, outputId) ∈ g'.connections ↔ i = inputId) := by
  have hg1self : (inputId, outputId) ∈ (removeOtherInputs g outputId inputId).connections := by
    unfold removeOtherInputs
    exact List.mem_filter.mpr ⟨hmem, by simp⟩
  have honly : ∀ j : Nat,
      (j, outputId) ∈ (removeOtherInputs g outputId inputId).connections → j = inputId := by
    intro j hj
    have h2 := (List.mem_filter.mp hj).2
    simpa using h2
  unfold connectEventEnded at h
  simp only [] at h
  split at h
  · exact Option.noConfusion h
  · split at h
    · exact Option.noConfusion h
    · split at h
      · injection h with h
        subst h
        exact ⟨honly i, fun hi => hi ▸ hg1self⟩
      · split at h
        · injection h with h
          subst h
          constructor
          · intro hmem2
            exact honly i (conn_mem_of_mem_adjust hmem2)
          · intro hi
            subst hi
            exact conn_mem_adjust_of_mem hg1self
        · injection h with h
          subst h
          exact ⟨honly i, fun hi => hi ▸ hg1self⟩

/-- C4: for every connect event completed at output O with input I, after the
handler runs, every input other than I that was previously connected to O is
disconnected and I is connected to O — immediately after any single connect
event, O drives exactly one input. -/
theorem connect_event_output_drives_exactly_one_input [BehaviorFactory T]
    {g g' : Graph T} {outputId inputId : Nat}
    (h : connectEvent g outputId inputId = some g') :
    ∀ i, ((i, outputId) ∈ g'.connections ↔ i = inputId) := by
  intro i
  exact connectEventEnded_conn_iff (mem_insertConn_self _ _ _) h i

/-- Witness for C4 at the concrete sample: connecting output 11 to input 21
leaves input 21 as the unique input driven by output 11. -/
theorem connect_event_output_drives_exactly_one_input_witness :
    ((21, 11) ∈ sampleCompositeConnected.connections ↔ 21 = 21) ∧
      ((20, 11) ∈ sampleCompositeConnected.connections ↔ 20 = 21) :=
  ⟨connect_event_output_drives_exactly_one_input (g := sampleComposite) (by decide) 21,
   connect_event_output_drives_exactly_one_input (g := sampleComposite) (by decide) 20⟩

/-! ## Association list lemmas for the session state -/

theorem lookup_upsert_self (l : List (Nat × α)) (k : Nat) (v : α) :
    (upsert l k v).lookup k = some v := by
  induction l with
  | nil => simp [upsert, List.lookup]
  | cons p rest ih =>
    simp only [upsert]
    split
    · rename_i hpk
      simp [List.lookup]
    · rename_i hpk
      have hkp : (k == p.1) = false := by
        rw [beq_eq_false_iff_ne]
        intro e
        exact hpk (by simp [e])
      simp [List.lookup, hkp, ih]

/-! ## C6: Run with no root child reverts to Editing without sending -/

/-- C6: whenever the update tick observes a selected item in the Run state
whose graph contains a Root node with no connected child, the item's state
becomes Editing, an error is reported, and no protocol message is sent. -/
theorem run_without_root_child_reverts_to_editing [BehaviorFactory T]
    {w : InspectorWorld T} {fid : Nat} {item : BehaviorInspectorItem T}
    {e : Nat} {editor : BehaviorEditorState T}
    (freshEntity : Nat) (ser : BehaviorEditorState T → Option String) (fuel : Nat)
    (hsel : w.selected = some fid)
    (hit : w.items.lookup fid = some item)
    (hst : item.state = .Run)
    (hent : item.entity = some e)
    (hed : w.entities.lookup e = some editor)
    (hroot : (findRootNode editor.graph).isSome = true)
    (hchild : get_root_child editor.graph = none) :
    (updateSelectedTick w freshEntity ser fuel).items.lookup fid =
        some { item with state := .Editing } ∧
      (updateSelectedTick w freshEntity ser fuel).sent = w.sent ∧
      (updateSelectedTick w freshEntity ser fuel).errors = w.errors ++ ["No root child"] := by
  obtain ⟨p, hp⟩ := Option.isSome_iff_exists.mp hroot
  simp only [updateSelectedTick, hsel, hit, hst, hent, hed, hp, hchild]
  refine ⟨lookup_upsert_self _ _ _, ?_, ?_⟩ <;> trivial

/-- A session world whose selected item is in the Run state while its graph is
the freshly created one: a Root node with no connected child. -/
def sampleRunWorld : InspectorWorld TestBehavior :=
  { items := [(7, { entity := some 4, name := "bt", state := .Run, collapsed := false,
                    behavior := none })],
    entities := [(4, newEditorState TestBehavior)],
    selected := some 7,
    sent := [],
    errors := [] }

/-- Witness for C6 at the concrete sample world. -/
theorem run_without_root_child_reverts_to_editing_witness :
    (updateSelectedTick sampleRunWorld 9 (fun _ => some "data") 5).items.lookup 7 =
        some { entity := some 4, name := "bt", state := .Editing, collapsed := false,
               behavior := none } ∧
      (updateSelectedTick sampleRunWorld 9 (fun _ => some "data") 5).sent = [] ∧
      (updateSelectedTick sampleRunWorld 9 (fun _ => some "data") 5).errors =
        [] ++ ["No root child"] :=
  run_without_root_child_reverts_to_editing (w := sampleRunWorld) 9 (fun _ => some "data") 5
    rfl rfl rfl rfl rfl rfl rfl

/-! ## C9: a New selected item becomes Editing with a one-node Root graph -/

/-- C9: one update tick moves a selected New item to Editing and creates a
backing graph entity whose editor graph contains exactly one node, the Root
marker, positioned at the origin, with the item's entity field set to that
entity. -/
theorem new_item_tick_creates_root_entity [BehaviorFactory T]
    {w : InspectorWorld T} {fid : Nat} {item : BehaviorInspectorItem T}
    (freshEntity : Nat) (ser : BehaviorEditorState T → Option String) (fuel : Nat)
    (hsel : w.selected = some fid)
    (hit : w.items.lookup fid = some item)
    (hst : item.state = .New) :
    (updateSelectedTick w freshEntity ser fuel).items.lookup fid =
        some { item with entity := some freshEntity, state := .Editing } ∧
      (updateSelectedTick w freshEntity ser fuel).entities.lookup freshEntity =
        some (newEditorState T) ∧
      (newEditorState T).graph.nodes.length = 1 ∧
      (∃ node, (newEditorState T).graph.nodes = [(0, node)] ∧
        node.user_data.data = .Root) ∧
      (newEditorState T).node_positions.lookup 0 = some { x := 0, y := 0 } := by
  simp only [updateSelectedTick, hsel, hit, hst]
  refine ⟨lookup_upsert_self _ _ _, ?_, rfl, ⟨_, rfl, rfl⟩, rfl⟩
  simp [List.lookup]

/-- A session world whose selected item is freshly created (state New). -/
def sampleNewWorld : InspectorWorld TestBehavior :=
  { items := [(3, { entity := none, name := "bt_3", state := .New, collapsed := false,
                    behavior := none })],
    entities := [],
    selected := some 3,
    sent := [],
    errors := [] }

/-- Witness for C9 at the concrete sample world. -/
theorem new_item_tick_creates_root_entity_witness :
    (updateSelectedTick sampleNewWorld 11 (fun _ => some "data") 5).items.lookup 3 =
        some { entity := some 11, name := "bt_3", state := .Editing, collapsed := false,
               behavior := none } ∧
      (updateSelectedTick sampleNewWorld 11 (fun _ => some "data") 5).entities.lookup 11 =
        some (newEditorState TestBehavior) ∧
      (newEditorState TestBehavior).graph.nodes.length = 1 ∧
      (∃ node, (newEditorState TestBehavior).graph.nodes = [(0, node)] ∧
        node.user_data.data = .Root) ∧
      (newEditorState TestBehavior).node_positions.lookup 0 = some { x := 0, y := 0 } :=
  new_item_tick_creates_root_entity (w := sampleNewWorld) 11 (fun _ => some "data") 5
    rfl rfl rfl

/-! ## C7: failure semantics of Save and of load decoding -/

/-- A session world whose selected item is in the Save state with a backing
entity id whose editor-state component is missing from the store. -/
def sampleSaveWorldNoEditor : InspectorWorld TestBehavior :=
  { items := [(0, { entity := some 4, name := "bt_0", state := .Save, collapsed := false,
                    behavior := none })],
    entities := [],
    selected := some 0,
    sent := [],
    errors := [] }

/-- Counterexample to C7: with the entity present but its editor-state
component missing, the Save branch reverts the item to New, not to Editing as
claimed. -/
theorem save_missing_editor_state_reverts_to_new :
    ((updateSelectedTick sampleSaveWorldNoEditor 9 (fun _ => some "data") 1).items.lookup 0).map
        (fun it => it.state) = some BehaviorInspectorState.New ∧
      BehaviorInspectorState.New ≠ BehaviorInspectorState.Editing :=
  ⟨rfl, by decide⟩

/-- C7 as amended: during Save, a missing entity or a missing editor-state
component reverts the item to New while a serialization failure reverts it to
Editing, each logging an error and sending nothing; a decode failure on load
(the File message in the Loading state) is fatal — the source unwraps the
deserializer result. -/
theorem save_and_load_failure_semantics [BehaviorFactory T]
    {w : InspectorWorld T} {fid : Nat} {item : BehaviorInspectorItem T}
    (freshEntity : Nat) (ser : BehaviorEditorState T → Option String)
    (de : String → Option (BehaviorEditorState T)) (fuel : Nat)
    (hsel : w.selected = some fid)
    (hit : w.items.lookup fid = some item)
    (hst : item.state = .Save) :
    (item.entity = none →
      (updateSelectedTick w freshEntity ser fuel).items.lookup fid =
          some { item with state := .New } ∧
        (updateSelectedTick w freshEntity ser fuel).sent = w.sent ∧
        (updateSelectedTick w freshEntity ser fuel).errors =
          w.errors ++ ["No entity for behavior"]) ∧
    (∀ e, item.entity = some e → w.entities.lookup e = none →
      (updateSelectedTick w freshEntity ser fuel).items.lookup fid =
          some { item with state := .New } ∧
        (updateSelectedTick w freshEntity ser fuel).sent = w.sent ∧
        (updateSelectedTick w freshEntity ser fuel).errors =
          w.errors ++ ["No graph editor state for behavior"]) ∧
    (∀ e editor, item.entity = some e → w.entities.lookup e = some editor →
      ser editor = none →
      (updateSelectedTick w freshEntity ser fuel).items.lookup fid =
          some { item with state := .Editing } ∧
        (updateSelectedTick w freshEntity ser fuel).sent = w.sent ∧
        (updateSelectedTick w freshEntity ser fuel).errors =
          w.errors ++ ["Failed to serialize behavior"]) ∧
    (∀ fid2 item2 fileData, w.items.lookup fid2 = some item2 →
      item2.state = .Loading → de fileData = none →
      handleServerMsg w freshEntity de (.File fid2 fileData) = none) := by
  refine ⟨?_, ?_, ?_, ?_⟩
  · intro hent
    simp only [updateSelectedTick, hsel, hit, hst, hent]
    refine ⟨lookup_upsert_self _ _ _, ?_, ?_⟩ <;> trivial
  · intro e hent hed
    simp only [updateSelectedTick, hsel, hit, hst, hent, hed]
    refine ⟨lookup_upsert_self _ _ _, ?_, ?_⟩ <;> trivial
  · intro e editor hent hed hser
    simp only [updateSelectedTick, hsel, hit, hst, hent, hed, hser]
    refine ⟨lookup_upsert_self _ _ _, ?_, ?_⟩ <;> trivial
  · intro fid2 item2 fileData hit2 hst2 hde
    simp only [handleServerMsg, hit2, hst2, hde]

/-- Witness for the amended C7, at the concrete sample world: the missing
editor-state component case. -/
theorem save_and_load_failure_semantics_witness :
    (updateSelectedTick sampleSaveWorldNoEditor 9 (fun _ => some "data") 1).items.lookup 0 =
        some { entity := some 4, name := "bt_0", state := .New, collapsed := false,
               behavior := none } ∧
      (updateSelectedTick sampleSaveWorldNoEditor 9 (fun _ => some "data") 1).sent = [] ∧
      (updateSelectedTick sampleSaveWorldNoEditor 9 (fun _ => some "data") 1).errors =
        [] ++ ["No graph editor state for behavior"] :=
  (save_and_load_failure_semantics (w := sampleSaveWorldNoEditor) 9 (fun _ => some "data")
    (fun _ => none) 1 rfl rfl rfl).2.1 4 rfl rfl

/-! ## C8: server messages are applied only in their gating state -/

/-- C8: a File, FileSaved, Started or Telemetry message arriving with an
unknown file id, or for a known item not in its gating state (Loading, Saving,
Starting, Running respectively), leaves every item, every graph entity, the
selection and the outgoing messages unchanged, and is never fatal. -/
theorem gated_message_outside_gate_changes_nothing [BehaviorFactory T]
    {w : InspectorWorld T} {msg : BehaviorProtocolServer T}
    {fid : Nat} {st : BehaviorInspectorState}
    (freshEntity : Nat) (de : String → Option (BehaviorEditorState T))
    (hgate : gatingState msg = some (fid, st))
    (hmiss : w.items.lookup fid = none ∨
      ∃ item, w.items.lookup fid = some item ∧ item.state ≠ st) :
    ∃ w', handleServerMsg w freshEntity de msg = some w' ∧
      w'.items = w.items ∧ w'.entities = w.entities ∧
      w'.selected = w.selected ∧ w'.sent = w.sent := by
  cases msg with
  | FileNames files => exact absurd hgate (by simp [gatingState])
  | Stopped fid2 => exact absurd hgate (by simp [gatingState])
  | File fid2 fileData =>
    simp only [gatingState, Option.some.injEq, Prod.mk.injEq] at hgate
    obtain ⟨rfl, rfl⟩ := hgate
    rcases hmiss with hmi | ⟨item, hmi, hne⟩
    · exact ⟨w, by simp [handleServerMsg, hmi], rfl, rfl, rfl, rfl⟩
    · refine ⟨w, ?_, rfl, rfl, rfl, rfl⟩
      simp only [handleServerMsg, hmi]
  | FileSaved fid2 =>
    simp only [gatingState, Option.some.injEq, Prod.mk.injEq] at hgate
    obtain ⟨rfl, rfl⟩ := hgate
    rcases hmiss with hmi | ⟨item, hmi, hne⟩
    · exact ⟨{ w with errors := w.errors ++ ["Unexpected file saved"] },
        by simp [handleServerMsg, hmi], rfl, rfl, rfl, rfl⟩
    · refine ⟨w, ?_, rfl, rfl, rfl, rfl⟩
      simp only [handleServerMsg, hmi]
  | Started fid2 =>
    simp only [gatingState, Option.some.injEq, Prod.mk.injEq] at hgate
    obtain ⟨rfl, rfl⟩ := hgate
    rcases hmiss with hmi | ⟨item, hmi, hne⟩
    · exact ⟨{ w with errors := w.errors ++ ["Unexpected behavior started"] },
        by simp [handleServerMsg, hmi], rfl, rfl, rfl, rfl⟩
    · refine ⟨w, ?_, rfl, rfl, rfl, rfl⟩
      simp only [handleServerMsg, hmi]
  | Telemetry fid2 telemetry =>
    simp only [gatingState, Option.some.injEq, Prod.mk.injEq] at hgate
    obtain ⟨rfl, rfl⟩ := hgate
    rcases hmiss with hmi | ⟨item, hmi, hne⟩
    · exact ⟨{ w with errors := w.errors ++ ["Unexpected behavior telemetry"] },
        by simp [handleServerMsg, hmi], rfl, rfl, rfl, rfl⟩
    · refine ⟨w, ?_, rfl, rfl, rfl, rfl⟩
      simp only [handleServerMsg, hmi]

/-- A telemetry tree used to exercise the message handler concretely. -/
def sampleTelemetry : BehaviorTelemetry TestBehavior := .mk .running none []

/-- Witness for C8 at the concrete sample world: a Telemetry message for an
unknown file id changes nothing. -/
theorem gated_message_outside_gate_changes_nothing_witness :
    ∃ w', handleServerMsg sampleNewWorld 9 (fun _ => none)
        (.Telemetry 5 sampleTelemetry) = some w' ∧
      w'.items = sampleNewWorld.items ∧ w'.entities = sampleNewWorld.entities ∧
      w'.selected = sampleNewWorld.selected ∧ w'.sent = sampleNewWorld.sent :=
  gated_message_outside_gate_changes_nothing (w := sampleNewWorld) 9 (fun _ => none)
    rfl (Or.inl rfl)

/-! ## C3 and C5: the two overlay traversals preserve graph topology -/

theorem setNodeUserData_shape (g : Graph T) (n : Nat) (d : BehaviorNodeData T) :
    graphShape (setNodeUserData g n d) = graphShape g := by
  unfold graphShape setNodeUserData
  simp only [List.map_map]
  refine congrArg (fun x => (x, g.inputs, g.outputs, g.connections)) ?_
  apply List.map_congr_left
  intro p _
  by_cases h : p.1 = n <;> simp [h]

theorem behavior_to_graph_shapes :
    (∀ (g : Graph T) (n : Nat) (b : Behavior T),
      graphShape (behavior_to_graph g n b) = graphShape g) ∧
    (∀ (g : Graph T) (kids : List Nat) (cs : List (Behavior T)),
      graphShape (behaviorToGraphPairs g kids cs) = graphShape g) := by
  apply behavior_to_graph.mutual_induct
    (fun g n b => graphShape (behavior_to_graph g n b) = graphShape g)
    (fun g kids cs => graphShape (behaviorToGraphPairs g kids cs) = graphShape g)
  · intro g n l d cs hnone
    rw [behavior_to_graph]
    simp [hnone]
  · intro g n l d cs node hsome g1 ih
    rw [behavior_to_graph]
    simp only [hsome]
    exact ih.trans (setNodeUserData_shape g n _)
  · intro g k kids' c cs' ih1 ih2
    rw [behaviorToGraphPairs]
    exact ih2.trans ih1
  · intro g kids cs hfall
    rw [behaviorToGraphPairs.eq_def]
    split
    · rename_i k kids' c cs'
      exact (hfall k kids' c cs' rfl rfl).elim
    · rfl

theorem behavior_telemerty_to_graph_shapes :
    (∀ (g : Graph T) (n : Nat) (t : BehaviorTelemetry T),
      graphShape (behavior_telemerty_to_graph g n t) = graphShape g) ∧
    (∀ (g : Graph T) (kids : List Nat) (cs : List (BehaviorTelemetry T)),
      graphShape (behaviorTelemetryPairs g kids cs) = graphShape g) := by
  apply behavior_telemerty_to_graph.mutual_induct
    (fun g n t => graphShape (behavior_telemerty_to_graph g n t) = graphShape g)
    (fun g kids cs => graphShape (behaviorTelemetryPairs g kids cs) = graphShape g)
  · intro g n st data cs hnone
    rw [behavior_telemerty_to_graph]
    simp [hnone]
  · intro g n st cs node hsome b g1 ih
    rw [behavior_telemerty_to_graph]
    simp only [hsome]
    exact ih.trans (setNodeUserData_shape g n _)
  · intro g n st cs node hsome ih
    rw [behavior_telemerty_to_graph]
    simp only [hsome]
    exact ih
  · intro g k kids' c cs' ih1 ih2
    rw [behaviorTelemetryPairs]
    exact ih2.trans ih1
  · intro g kids cs hfall
    rw [behaviorTelemetryPairs.eq_def]
    split
    · rename_i k kids' c cs'
      exact (hfall k kids' c cs' rfl rfl).elim
    · rfl

/-- C3: behavior_to_graph overwrites the target node's payload with the
behavior node's payload and clears its telemetry overlay, then recurses
pairwise over the graph node's connected children in port order zipped with
the behavior children in list order, stopping at the shorter of the two; the
graph topology (node ids, labels, port lists, params, connections) is exactly
preserved, so no graph node, port or connection is ever created or deleted,
extra graph children are left untouched and extra behavior children are
dropped. -/
theorem behavior_to_graph_overwrites_and_preserves_topology :
    (∀ (g : Graph T) (n : Nat) (b : Behavior T),
      graphShape (behavior_to_graph g n b) = graphShape g) ∧
    (∀ (g : Graph T) (n : Nat) (l : String) (d : T) (cs : List (Behavior T)) (node : Node T),
      g.nodes.lookup n = some node →
      behavior_to_graph g n (.mk l d cs) =
        behaviorToGraphPairs
          (setNodeUserData g n { data := .Behavior d, state := none })
          (nodeFlowChildren (setNodeUserData g n { data := .Behavior d, state := none }) node)
          cs) ∧
    (∀ (g : Graph T) (k : Nat) (kids : List Nat) (c : Behavior T) (cs : List (Behavior T)),
      behaviorToGraphPairs g (k :: kids) (c :: cs) =
        behaviorToGraphPairs (behavior_to_graph g k c) kids cs) ∧
    (∀ (g : Graph T) (cs : List (Behavior T)), behaviorToGraphPairs g [] cs = g) ∧
    (∀ (g : Graph T) (kids : List Nat), behaviorToGraphPairs g kids [] = g) := by
  refine ⟨behavior_to_graph_shapes.1, ?_, ?_, ?_, ?_⟩
  · intro g n l d cs node hsome
    rw [behavior_to_graph]
    simp only [hsome]
  · intro g k kids c cs
    rw [behaviorToGraphPairs]
  · intro g cs
    rw [behaviorToGraphPairs.eq_def]
  · intro g kids
    cases kids with
    | nil => rw [behaviorToGraphPairs.eq_def]
    | cons k ks => rw [behaviorToGraphPairs.eq_def]

/-- Witness for C3 at a concrete input: overlaying a leaf behavior onto the
action node 2 of the sample graph. -/
theorem behavior_to_graph_overwrites_and_preserves_topology_witness :
    behavior_to_graph sampleComposite 2 (.mk "C" TestBehavior.act []) =
      behaviorToGraphPairs
        (setNodeUserData sampleComposite 2
          { data := .Behavior TestBehavior.act, state := none })
        (nodeFlowChildren
          (setNodeUserData sampleComposite 2
            { data := .Behavior TestBehavior.act, state := none })
          { label := "C", user_data := { data := .Behavior TestBehavior.act, state := none },
            inputs := [("A", 20)], outputs := [] })
        [] :=
  behavior_to_graph_overwrites_and_preserves_topology.2.1 sampleComposite 2 "C"
    TestBehavior.act []
    { label := "C", user_data := { data := .Behavior TestBehavior.act, state := none },
      inputs := [("A", 20)], outputs := [] } rfl

/-- C5: behavior_telemerty_to_graph modifies only per-node user data (payload
and displayed execution state), and only at nodes whose telemetry carries a
behavior snapshot; it recurses pairwise over graph children zipped with
telemetry children stopping at the shorter list, and never changes graph
topology: node, input-param, output-param and connection counts (indeed the
full topology) are equal before and after the call. -/
theorem telemetry_to_graph_modifies_only_node_data :
    (∀ (g : Graph T) (n : Nat) (t : BehaviorTelemetry T),
      graphShape (behavior_telemerty_to_graph g n t) = graphShape g) ∧
    (∀ (g : Graph T) (n : Nat) (t : BehaviorTelemetry T),
      (behavior_telemerty_to_graph g n t).nodes.length = g.nodes.length ∧
        (behavior_telemerty_to_graph g n t).inputs.length = g.inputs.length ∧
        (behavior_telemerty_to_graph g n t).outputs.length = g.outputs.length ∧
        (behavior_telemerty_to_graph g n t).connections.length = g.connections.length) ∧
    (∀ (g : Graph T) (n : Nat) (st : BehaviorState) (b : T)
        (cs : List (BehaviorTelemetry T)) (node : Node T),
      g.nodes.lookup n = some node →
      behavior_telemerty_to_graph g n (.mk st (some b) cs) =
        behaviorTelemetryPairs
          (setNodeUserData g n { data := .Behavior b, state := some st })
          (nodeFlowChildren (setNodeUserData g n { data := .Behavior b, state := some st })
            node)
          cs) ∧
    (∀ (g : Graph T) (n : Nat) (st : BehaviorState)
        (cs : List (BehaviorTelemetry T)) (node : Node T),
      g.nodes.lookup n = some node →
      behavior_telemerty_to_graph g n (.mk st none cs) =
        behaviorTelemetryPairs g (nodeFlowChildren g node) cs) ∧
    (∀ (g : Graph T) (k : Nat) (kids : List Nat) (c : BehaviorTelemetry T)
        (cs : List (BehaviorTelemetry T)),
      behaviorTelemetryPairs g (k :: kids) (c :: cs) =
        behaviorTelemetryPairs (behavior_telemerty_to_graph g k c) kids cs) ∧
    (∀ (g : Graph T) (cs : List (BehaviorTelemetry T)),
      behaviorTelemetryPairs g [] cs = g) ∧
    (∀ (g : Graph T) (kids : List Nat), behaviorTelemetryPairs g kids [] = g) := by
  refine ⟨behavior_telemerty_to_graph_shapes.1, ?_, ?_, ?_, ?_, ?_, ?_⟩
  · intro g n t
    have hs := behavior_telemerty_to_graph_shapes.1 g n t
    refine ⟨?_, ?_, ?_, ?_⟩
    · have h1 := congrArg (fun q => q.1.length) hs
      simpa [graphShape] using h1
    · exact congrArg (fun q => q.2.1.length) hs
    · exact congrArg (fun q => q.2.2.1.length) hs
    · exact congrArg (fun q => q.2.2.2.length) hs
  · intro g n st b cs node hsome
    rw [behavior_telemerty_to_graph]
    simp only [hsome]
  · intro g n st cs node hsome
    rw [behavior_telemerty_to_graph]
    simp only [hsome]
  · intro g k kids c cs
    rw [behaviorTelemetryPairs]
  · intro g cs
    rw [behaviorTelemetryPairs.eq_def]
  · intro g kids
    cases kids with
    | nil => rw [behaviorTelemetryPairs.eq_def]
    | cons k ks => rw [behaviorTelemetryPairs.eq_def]

/-- Witness for C5 at a concrete input: a telemetry node with no snapshot at
node 2 of the sample graph recurses without touching the node. -/
theorem telemetry_to_graph_modifies_only_node_data_witness :
    behavior_telemerty_to_graph sampleComposite 2 (.mk .running none []) =
      behaviorTelemetryPairs sampleComposite
        (nodeFlowChildren sampleComposite
          { label := "C", user_data := { data := .Behavior TestBehavior.act, state := none },
            inputs := [("A", 20)], outputs := [] })
        [] :=
  telemetry_to_graph_modifies_only_node_data.2.2.2.1 sampleComposite 2 .running []
    { label := "C", user_data := { data := .Behavior TestBehavior.act, state := none },
      inputs := [("A", 20)], outputs := [] } rfl

/-! ## C2 and C10: graph_to_behavior characterization and termination -/

theorem graphToBehaviorKids_error {f : Nat → Except GErr (Behavior T)}
    {cs : List Nat} {e : GErr}
    (h : graphToBehaviorKids f cs = .error e) : ∃ c ∈ cs, f c = .error e := by
  induction cs with
  | nil => simp [graphToBehaviorKids] at h
  | cons c rest ih =>
    simp only [graphToBehaviorKids] at h
    cases hc : f c with
    | error e2 =>
      rw [hc] at h
      have he : e2 = e := by simpa using h
      subst he
      exact ⟨c, by simp, hc⟩
    | ok b =>
      rw [hc] at h
      cases hr : graphToBehaviorKids f rest with
      | error e2 =>
        rw [hr] at h
        have he : e2 = e := by simpa using h
        subst he
        obtain ⟨c2, hc2, hf⟩ := ih hr
        exact ⟨c2, by simp [hc2], hf⟩
      | ok bs =>
        rw [hr] at h
        exact absurd h (by simp)

theorem flowEdge_of_mem_children {g : Graph T} {node : Node T} {n c : Nat}
    (hlk : g.nodes.lookup n = some node) (hc : c ∈ nodeFlowChildren g node) :
    FlowEdge g n c := by
  rcases List.mem_filterMap.mp hc with ⟨o, ho, hco⟩
  exact ⟨node, o, hlk, ho, hco⟩

theorem reachable_snoc {g : Graph T} {s n c : Nat}
    (hr : ReachableFrom g s n) : FlowEdge g n c → ReachableFrom g s c := by
  induction hr with
  | refl m => intro he; exact .head he (.refl _)
  | head e r ih => intro he; exact .head e (ih he)

theorem graph_to_behavior_no_fuel_aux :
    ∀ (fuel : Nat) (g : Graph T) (s : Nat) (rank : Nat → Nat),
      (∀ m c, ReachableFrom g s m → FlowEdge g m c → rank c < rank m) →
      ∀ n, ReachableFrom g s n → rank n < fuel →
      graph_to_behavior g n fuel ≠ .error .fuel := by
  intro fuel
  induction fuel with
  | zero => intro g s rank _ n _ hlt; omega
  | succ fuel ih =>
    intro g s rank hrank n hreach hlt h
    rw [graph_to_behavior] at h
    split at h
    · exact absurd h (by simp)
    · split at h
      · exact absurd h (by simp)
      · split at h
        · rename_i x1 node hlk x2 b hdata x3 e hk
          have he : e = .fuel := by simpa using h
          subst he
          obtain ⟨c, hcmem, hcall⟩ := graphToBehaviorKids_error hk
          have hedge := flowEdge_of_mem_children hlk hcmem
          have hcfuel : rank c < fuel := by
            have h1 := hrank n c hreach hedge
            omega
          exact ih g s rank hrank c (reachable_snoc hreach hedge) hcfuel hcall
        · exact absurd h (by simp)

theorem graph_to_behavior_sound :
    ∀ (fuel : Nat) (g : Graph T) (n : Nat) (t : Behavior T),
      graph_to_behavior g n fuel = .ok t → GraphBehaviorRel g n t := by
  intro fuel
  induction fuel with
  | zero => intro g n t h; exact absurd h (by simp [graph_to_behavior])
  | succ fuel ih =>
    have hkids : ∀ (g : Graph T) (cs : List Nat) (ts : List (Behavior T)),
        graphToBehaviorKids (fun c => graph_to_behavior g c fuel) cs = .ok ts →
        GraphBehaviorChildrenRel g cs ts := by
      intro g cs
      induction cs with
      | nil =>
        intro ts h
        have hts : ([] : List (Behavior T)) = ts := by
          simpa [graphToBehaviorKids] using h
        subst hts
        exact .nil
      | cons c rest ihr =>
        intro ts h
        simp only [graphToBehaviorKids] at h
        cases hc : graph_to_behavior g c fuel with
        | error e => rw [hc] at h; exact absurd h (by simp)
        | ok b =>
          rw [hc] at h
          cases hr : graphToBehaviorKids (fun x => graph_to_behavior g x fuel) rest with
          | error e => rw [hr] at h; exact absurd h (by simp)
          | ok bs =>
            rw [hr] at h
            have hts : b :: bs = ts := by simpa using h
            subst hts
            exact .cons (ih g c b hc) (ihr bs hr)
    intro g n t h
    rw [graph_to_behavior] at h
    split at h
    · exact absurd h (by simp)
    · split at h
      · exact absurd h (by simp)
      · split at h
        · exact absurd h (by simp)
        · rename_i x1 node hlk x2 b hdata x3 kids hk
          have ht : Behavior.mk node.label b kids = t := by simpa using h
          subst ht
          exact .mk hlk hdata (hkids g _ kids hk)

theorem graph_to_behavior_panic_reaches_root :
    ∀ (fuel : Nat) (g : Graph T) (n : Nat),
      graph_to_behavior g n fuel = .error .expectedBehavior →
      ∃ m node, ReachableFrom g n m ∧ g.nodes.lookup m = some node ∧
        node.user_data.data = .Root := by
  intro fuel
  induction fuel with
  | zero => intro g n h; exact absurd h (by simp [graph_to_behavior])
  | succ fuel ih =>
    intro g n h
    rw [graph_to_behavior] at h
    split at h
    · exact absurd h (by simp)
    · split at h
      · rename_i x1 node hlk x2 hdata
        exact ⟨n, node, .refl n, hlk, hdata⟩
      · split at h
        · rename_i x1 node hlk x2 b hdata x3 e hk
          have he : e = .expectedBehavior := by simpa using h
          subst he
          obtain ⟨c, hcmem, hcall⟩ := graphToBehaviorKids_error hk
          obtain ⟨m, node2, hreach, hlk2, hdata2⟩ := ih g c hcall
          exact ⟨m, node2,
            .head (flowEdge_of_mem_children hlk hcmem) hreach, hlk2, hdata2⟩
        · exact absurd h (by simp)

/-- Counterexample to C2 as stated: node 0 of this graph carries a Behavior
payload (not the Root marker), yet graph_to_behavior panics on it, because the
node its output connects to (node 1) carries the Root payload — so the
function does not panic only on Root-payload arguments. -/
theorem graph_to_behavior_panics_on_behavior_node :
    graph_to_behavior sampleRootChild 0 2 = .error .expectedBehavior ∧
      sampleRootChild.nodes.lookup 0 =
        some { label := "A", user_data := { data := .Behavior .act, state := none },
               inputs := [], outputs := [("B", 10)] } :=
  ⟨rfl, rfl⟩

/-- C2 (amended): for every graph node whose payload is a Behavior variant,
whenever graph_to_behavior returns a tree it carries that node's payload and
label, with one child per connected Flow output port in port-declaration
order, recursing into the node owning the connected input, a disconnected
output contributing no child; it panics whenever the node's payload is the
Root marker, and it produces the Root-marker panic only when some node
reachable from the argument along Flow edges carries the Root payload. -/
theorem graph_to_behavior_builds_tree_and_panics_on_root :
    (∀ (g : Graph T) (fuel : Nat) (n : Nat) (t : Behavior T),
      graph_to_behavior g n fuel = .ok t → GraphBehaviorRel g n t) ∧
    (∀ (g : Graph T) (fuel : Nat) (n : Nat) (node : Node T),
      g.nodes.lookup n = some node → node.user_data.data = .Root →
      graph_to_behavior g n (fuel + 1) = .error .expectedBehavior) ∧
    (∀ (g : Graph T) (fuel : Nat) (n : Nat),
      graph_to_behavior g n fuel = .error .expectedBehavior →
      ∃ m node, ReachableFrom g n m ∧ g.nodes.lookup m = some node ∧
        node.user_data.data = .Root) := by
  refine ⟨?_, ?_, ?_⟩
  · intro g fuel n t
    exact graph_to_behavior_sound fuel g n t
  · intro g fuel n node hlk hdata
    rw [graph_to_behavior]
    simp [hlk, hdata]
  · intro g fuel n
    exact graph_to_behavior_panic_reaches_root fuel g n

/-- Witness for the amended C2 at a concrete input: converting the Root node
itself panics. -/
theorem graph_to_behavior_builds_tree_and_panics_on_root_witness :
    graph_to_behavior sampleRootChild 1 1 = .error .expectedBehavior :=
  graph_to_behavior_builds_tree_and_panics_on_root.2.1 sampleRootChild 0 1
    { label := "Root", user_data := { data := .Root, state := none },
      inputs := [("A", 20)], outputs := [] } rfl rfl

theorem sampleLeaf_no_edge : ∀ n c : Nat, ¬ FlowEdge sampleLeafGraph n c := by
  intro n c he
  rcases he with ⟨node, o, hlk, ho, _⟩
  simp only [sampleLeafGraph, List.lookup] at hlk
  split at hlk
  · injection hlk with h2
    subst h2
    simp at ho
  · exact Option.noConfusion hlk

/-- C10: on every graph whose Flow-edge relation is acyclic on the part
reachable from the starting node (witnessed by a rank that decreases along
reachable edges), graph_to_behavior terminates — any budget above the
starting rank is never exhausted — and behavior_to_graph and
behavior_telemerty_to_graph are total functions (they recurse on the finite
tree argument). -/
theorem acyclic_traversals_terminate (g : Graph T) (start fuel : Nat)
    (rank : Nat → Nat)
    (hrank : ∀ m c, ReachableFrom g start m → FlowEdge g m c → rank c < rank m)
    (hfuel : rank start < fuel) :
    graph_to_behavior g start fuel ≠ .error .fuel ∧
      (∀ (n : Nat) (b : Behavior T), ∃ g2, behavior_to_graph g n b = g2) ∧
      (∀ (n : Nat) (t : BehaviorTelemetry T),
        ∃ g2, behavior_telemerty_to_graph g n t = g2) := by
  refine ⟨?_, fun n b => ⟨_, rfl⟩, fun n t => ⟨_, rfl⟩⟩
  exact graph_to_behavior_no_fuel_aux fuel g start rank hrank start (.refl start) hfuel

/-- Witness for C10 at a concrete input: the one-node graph has no Flow edges,
so the constant rank works and one unit of budget suffices. -/
theorem acyclic_traversals_terminate_witness :
    graph_to_behavior sampleLeafGraph 0 1 ≠ .error .fuel ∧
      (∃ g2, behavior_to_graph sampleLeafGraph 0 (.mk "A" TestBehavior.act []) = g2) ∧
      (∃ g2, behavior_telemerty_to_graph sampleLeafGraph 0 (.mk .idle none []) = g2) := by
  have H := acyclic_traversals_terminate sampleLeafGraph 0 1 (fun _ => 0)
    (fun m c _ he => absurd he (sampleLeaf_no_edge m c)) (by decide)
  exact ⟨H.1, H.2.1 0 _, H.2.2 0 _⟩


/-! ## C1: composite output arity under connect and disconnect events -/

theorem lookup_map_update (l : List (Nat × α)) (k : Nat) (f : α → α) :
    List.lookup k (l.map fun p => if p.1 == k then (p.1, f p.2) else p) =
      (List.lookup k l).map f := by
  induction l with
  | nil => rfl
  | cons p rest ih =>
    obtain ⟨a, v⟩ := p
    by_cases hp : a = k
    · subst hp
      rw [List.map_cons, if_pos (beq_self_eq_true a)]
      simp [List.lookup]
    · have h1 : ¬((a == k) = true) := by simpa using hp
      have h2 : (k == a) = false := by
        rw [beq_eq_false_iff_ne]
        exact fun e => hp e.symm
      rw [List.map_cons, if_neg h1]
      simp only [List.lookup, h2]
      exact ih

theorem lookup_filter_key_ne (l : List (Nat × α)) {k j : Nat} (hne : k ≠ j) :
    List.lookup k (l.filter fun p => p.1 != j) = List.lookup k l := by
  induction l with
  | nil => rfl
  | cons p rest ih =>
    by_cases hp : p.1 = j
    · subst hp
      have hk : (k == p.1) = false := by
        rw [beq_eq_false_iff_ne]
        exact hne
      simp [List.filter_cons, List.lookup, hk, ih]
    · have hkeep : (p.1 != j) = true := by simpa using hp
      cases hk2 : k == p.1 with
      | true => simp [List.filter_cons, hkeep, List.lookup, hk2]
      | false => simp [List.filter_cons, hkeep, List.lookup, hk2, ih]

theorem mem_keys_of_lookup {l : List (Nat × α)} {k : Nat} {v : α}
    (h : List.lookup k l = some v) : k ∈ l.map Prod.fst := by
  induction l with
  | nil => simp [List.lookup] at h
  | cons p rest ih =>
    simp only [List.lookup] at h
    cases hk : k == p.1 with
    | true =>
      have : k = p.1 := by simpa using hk
      simp [this]
    | false =>
      rw [hk] at h
      simp [ih h]

theorem foldl_max_le_init (l : List Nat) : ∀ a : Nat, a ≤ l.foldl max a := by
  induction l with
  | nil => intro a; simp
  | cons x rest ih =>
    intro a
    exact le_trans (le_max_left a x) (ih (max a x))

theorem mem_le_foldl_max (l : List Nat) : ∀ (a : Nat), ∀ x ∈ l, x ≤ l.foldl max a := by
  induction l with
  | nil => simp
  | cons y rest ih =>
    intro a x hx
    rcases List.mem_cons.mp hx with rfl | hx2
    · exact le_trans (le_max_right a x) (foldl_max_le_init rest _)
    · exact ih (max a y) x hx2

theorem lt_freshOutputId_of_mem_keys {g : Graph T} {k : Nat}
    (h : k ∈ g.outputs.map Prod.fst) : k < freshOutputId g := by
  unfold freshOutputId
  have := mem_le_foldl_max (g.outputs.map Prod.fst) 0 k h
  omega

theorem lookup_append_of_some {l1 : List (Nat × α)} (l2 : List (Nat × α))
    {k : Nat} {v : α} (h : List.lookup k l1 = some v) :
    List.lookup k (l1 ++ l2) = some v := by
  induction l1 with
  | nil => simp [List.lookup] at h
  | cons p rest ih =>
    simp only [List.lookup] at h
    simp only [List.cons_append, List.lookup]
    cases hk : k == p.1 with
    | true => rw [hk] at h; exact h
    | false => rw [hk] at h; exact ih h

theorem lookup_append_of_none {l1 : List (Nat × α)} (l2 : List (Nat × α))
    {k : Nat} (h : List.lookup k l1 = none) :
    List.lookup k (l1 ++ l2) = List.lookup k l2 := by
  induction l1 with
  | nil => rfl
  | cons p rest ih =>
    simp only [List.lookup] at h
    simp only [List.cons_append, List.lookup]
    cases hk : k == p.1 with
    | true => rw [hk] at h; exact Option.noConfusion h
    | false => rw [hk] at h; exact ih h

theorem lookup_none_of_fresh {g : Graph T} {k : Nat} (h : freshOutputId g ≤ k) :
    List.lookup k g.outputs = none := by
  cases hlk : List.lookup k g.outputs with
  | none => rfl
  | some v =>
    have := lt_freshOutputId_of_mem_keys (mem_keys_of_lookup hlk)
    omega


theorem insertConnection_outputs (g : Graph T) (i o : Nat) :
    (insertConnection g i o).outputs = g.outputs := rfl

theorem insertConnection_nodes (g : Graph T) (i o : Nat) :
    (insertConnection g i o).nodes = g.nodes := rfl

theorem removeOtherInputs_outputs (g : Graph T) (o i : Nat) :
    (removeOtherInputs g o i).outputs = g.outputs := rfl

theorem removeOtherInputs_nodes (g : Graph T) (o i : Nat) :
    (removeOtherInputs g o i).nodes = g.nodes := rfl

theorem isConnected_congr {g1 g2 : Graph T} (h : g1.connections = g2.connections)
    (x : Nat) : isConnected g1 x = isConnected g2 x := by
  unfold isConnected
  rw [h]

theorem remove_output_param_eq {G : Graph T} {r N : Nat} {q : OutputParam}
    (hlq : G.outputs.lookup r = some q) (hqN : q.node = N)
    (hnc : isConnected G r = false) :
    remove_output_param G r =
      { G with
        nodes := G.nodes.map fun p =>
          if p.1 == N then
            (p.1, { p.2 with outputs := p.2.outputs.filter fun o => o.2 != r })
          else p,
        outputs := G.outputs.filter fun p2 => p2.1 != r,
        connections := G.connections } := by
  unfold remove_output_param
  simp only [hlq]
  subst hqN
  have hcf : (G.connections.filter fun c => c.2 != r) = G.connections := by
    apply List.filter_eq_self.mpr
    intro c hc
    rw [bne_iff_ne]
    intro he
    have : isConnected G r = true := by
      unfold isConnected
      exact List.any_eq_true.mpr ⟨c, hc, by simp [he]⟩
    rw [this] at hnc
    exact Bool.noConfusion hnc
  rw [hcf]

theorem foldl_remove_props :
    ∀ (rs : List Nat) (G : Graph T) (N : Nat) (node : Node T),
      (∀ r ∈ rs, (G.outputs.lookup r).map OutputParam.node = some N) →
      (∀ r ∈ rs, isConnected G r = false) →
      rs.Nodup →
      G.nodes.lookup N = some node →
      (rs.foldl remove_output_param G).connections = G.connections ∧
      (∀ k, k ∉ rs →
        (rs.foldl remove_output_param G).outputs.lookup k = G.outputs.lookup k) ∧
      (∃ node2, (rs.foldl remove_output_param G).nodes.lookup N = some node2 ∧
        node2.outputs = node.outputs.filter fun o => !(rs.contains o.2)) := by
  intro rs
  induction rs with
  | nil =>
    intro G N node _ _ _ hn
    refine ⟨rfl, fun k _ => rfl, node, hn, ?_⟩
    simp
  | cons r rest ih =>
    intro G N node hown hnc hnd hn
    obtain ⟨q, hlq, hqN⟩ : ∃ q, G.outputs.lookup r = some q ∧ q.node = N := by
      have h1 := hown r (by simp)
      cases hlq : G.outputs.lookup r with
      | none => rw [hlq] at h1; exact absurd h1 (by simp)
      | some q => rw [hlq] at h1; exact ⟨q, rfl, by simpa using h1⟩
    have hstep := remove_output_param_eq hlq hqN (hnc r (by simp))
    have hfold : (r :: rest).foldl remove_output_param G =
        rest.foldl remove_output_param (remove_output_param G r) := rfl
    rw [hfold, hstep]
    have hner : ∀ r2 ∈ rest, r2 ≠ r := by
      intro r2 h2 he
      subst he
      exact (List.nodup_cons.mp hnd).1 h2
    have hih := ih
      { G with
        nodes := G.nodes.map fun p =>
          if p.1 == N then
            (p.1, { p.2 with outputs := p.2.outputs.filter fun o => o.2 != r })
          else p,
        outputs := G.outputs.filter fun p2 => p2.1 != r,
        connections := G.connections }
      N ({ node with outputs := node.outputs.filter fun o => o.2 != r })
      (by
        intro r2 h2
        show ((G.outputs.filter fun p2 => p2.1 != r).lookup r2).map OutputParam.node =
          some N
        rw [lookup_filter_key_ne G.outputs (hner r2 h2)]
        exact hown r2 (by simp [h2]))
      (by
        intro r2 h2
        exact hnc r2 (List.mem_cons_of_mem _ h2))
      ((List.nodup_cons.mp hnd).2)
      (by
        have hmu := lookup_map_update G.nodes N
          (fun nd => { nd with outputs := nd.outputs.filter fun o => o.2 != r })
        rw [hn] at hmu
        exact hmu)
    obtain ⟨hc1, hk1, node2, hn2, ho2⟩ := hih
    refine ⟨hc1, ?_, node2, hn2, ?_⟩
    · intro k hk
      have hkr : k ≠ r := fun e => hk (by simp [e])
      have hkrest : k ∉ rest := fun e => hk (by simp [e])
      rw [hk1 k hkrest]
      show (G.outputs.filter fun p2 => p2.1 != r).lookup k = G.outputs.lookup k
      exact lookup_filter_key_ne G.outputs hkr
    · rw [ho2]
      show (node.outputs.filter fun o => o.2 != r).filter
          (fun o => !(rest.contains o.2)) =
        node.outputs.filter fun o => !((r :: rest).contains o.2)
      rw [List.filter_filter]
      apply List.filter_congr
      intro o _
      by_cases hor : o.2 = r
      · simp [hor, List.contains_cons]
      · by_cases hom : o.2 ∈ rest
        · simp [hor, hom, List.contains_cons]
        · simp [hor, hom, List.contains_cons]


theorem add_output_param_outputs (g : Graph T) (n : Nat) (s : String)
    (t : BehaviorDataType) :
    (add_output_param g n s t).outputs =
      g.outputs ++ [(freshOutputId g, { node := n, typ := t })] := rfl

theorem add_output_param_connections (g : Graph T) (n : Nat) (s : String)
    (t : BehaviorDataType) :
    (add_output_param g n s t).connections = g.connections := rfl

theorem unusedOutputs_nodup {g : Graph T} {node : Node T}
    (h : (node.outputs.map Prod.snd).Nodup) : (unusedOutputs g node).Nodup := by
  unfold unusedOutputs
  exact List.Nodup.sublist ((List.filter_sublist _).map Prod.snd) h

theorem mem_outputs_of_mem_unused {g : Graph T} {node : Node T} {r : Nat}
    (h : r ∈ unusedOutputs g node) : ∃ o ∈ node.outputs, o.2 = r := by
  unfold unusedOutputs at h
  rcases List.mem_map.mp h with ⟨o, ho, rfl⟩
  exact ⟨o, (List.mem_filter.mp ho).1, rfl⟩

theorem filter_not_contains_tail {L : List (String × Nat)} {u : Nat} {us : List Nat}
    (hmap : L.map Prod.snd = u :: us) (hnd : (u :: us).Nodup) :
    (L.filter fun o => !(us.contains o.2)).map Prod.snd = [u] := by
  cases L with
  | nil => simp at hmap
  | cons e L2 =>
    simp only [List.map_cons, List.cons.injEq] at hmap
    obtain ⟨heu, hmap2⟩ := hmap
    have hunotin : u ∉ us := (List.nodup_cons.mp hnd).1
    have hkeep : (!(us.contains e.2)) = true := by
      rw [heu]
      simp [hunotin]
    have hrest : (L2.filter fun o => !(us.contains o.2)) = [] := by
      rw [List.filter_eq_nil_iff]
      intro o ho hp
      have hmem : o.2 ∈ us := by
        rw [← hmap2]
        exact List.mem_map_of_mem _ ho
      simp [hmem] at hp
    rw [List.filter_cons, if_pos hkeep, hrest]
    simp [heu]

theorem adjustCompositeOutputs_one_unconnected {h : Graph T} {N : Nat}
    {node : Node T}
    (hn : h.nodes.lookup N = some node)
    (honodup : (node.outputs.map Prod.snd).Nodup)
    (hown : ∀ o ∈ node.outputs, (h.outputs.lookup o.2).map OutputParam.node = some N)
    (hflow : ∀ o ∈ node.outputs,
      (h.outputs.lookup o.2).map OutputParam.typ = some BehaviorDataType.Flow)
    (hct : ∀ c ∈ h.connections, (h.outputs.lookup c.2).isSome = true) :
    ∃ node2, (adjustCompositeOutputs h N node).nodes.lookup N = some node2 ∧
      (unconnectedFlowOutputs (adjustCompositeOutputs h N node) node2).length = 1 := by
  cases hu : unusedOutputs h node with
  | nil =>
    have hadj : adjustCompositeOutputs h N node =
        add_output_param h N "B" BehaviorDataType.Flow := by
      unfold adjustCompositeOutputs
      rw [hu]
      rfl
    have hall : ∀ o ∈ node.outputs, isConnected h o.2 = true := by
      intro o ho
      have hfe : (node.outputs.filter fun o => !(isConnected h o.2)) = [] := by
        unfold unusedOutputs at hu
        exact List.map_eq_nil_iff.mp hu
      have h2 := List.filter_eq_nil_iff.mp hfe o ho
      cases hco : isConnected h o.2 with
      | true => rfl
      | false => exact absurd (by simp [hco]) h2
    have hfreshnone : h.outputs.lookup (freshOutputId h) = none :=
      lookup_none_of_fresh (le_refl _)
    have hfc : isConnected h (freshOutputId h) = false := by
      cases hic : isConnected h (freshOutputId h) with
      | false => rfl
      | true =>
        unfold isConnected at hic
        rcases List.any_eq_true.mp hic with ⟨c, hc, hcb⟩
        have hsome := hct c hc
        have hc2 : c.2 = freshOutputId h := by simpa using hcb
        rw [hc2, hfreshnone] at hsome
        exact Bool.noConfusion hsome
    have hnodes : (add_output_param h N "B" BehaviorDataType.Flow).nodes.lookup N =
        some { node with outputs := node.outputs ++ [("B", freshOutputId h)] } := by
      have hmu := lookup_map_update h.nodes N
        (fun nd => { nd with outputs := nd.outputs ++ [("B", freshOutputId h)] })
      rw [hn] at hmu
      exact hmu
    rw [hadj]
    refine ⟨_, hnodes, ?_⟩
    unfold unconnectedFlowOutputs
    rw [show ({ node with outputs := node.outputs ++ [("B", freshOutputId h)] } :
        Node T).outputs = node.outputs ++ [("B", freshOutputId h)] from rfl]
    rw [List.filter_append]
    have hpart1 : (node.outputs.filter fun o =>
        (((add_output_param h N "B" BehaviorDataType.Flow).outputs.lookup o.2).map
            OutputParam.typ == some BehaviorDataType.Flow) &&
          !(isConnected (add_output_param h N "B" BehaviorDataType.Flow) o.2)) = [] := by
      rw [List.filter_eq_nil_iff]
      intro o ho hp
      have hic : isConnected (add_output_param h N "B" BehaviorDataType.Flow) o.2 =
          isConnected h o.2 :=
        isConnected_congr (add_output_param_connections h N "B" BehaviorDataType.Flow) o.2
      rw [hic, hall o ho] at hp
      simp at hp
    have hpart2 : ([("B", freshOutputId h)].filter fun o =>
        (((add_output_param h N "B" BehaviorDataType.Flow).outputs.lookup o.2).map
            OutputParam.typ == some BehaviorDataType.Flow) &&
          !(isConnected (add_output_param h N "B" BehaviorDataType.Flow) o.2)) =
        [("B", freshOutputId h)] := by
      rw [List.filter_eq_self]
      intro o ho
      have hoe : o = ("B", freshOutputId h) := by simpa using ho
      subst hoe
      have hic : isConnected (add_output_param h N "B" BehaviorDataType.Flow)
          (freshOutputId h) = isConnected h (freshOutputId h) :=
        isConnected_congr (add_output_param_connections h N "B" BehaviorDataType.Flow) _
      have hlk2 : (add_output_param h N "B" BehaviorDataType.Flow).outputs.lookup
          (freshOutputId h) = some { node := N, typ := BehaviorDataType.Flow } := by
        rw [add_output_param_outputs]
        rw [lookup_append_of_none _ hfreshnone]
        simp [List.lookup]
      rw [hlk2, hic, hfc]
      simp
    rw [hpart1, hpart2]
    simp
  | cons u us =>
    have hadj : adjustCompositeOutputs h N node =
        us.reverse.foldl remove_output_param h := by
      unfold adjustCompositeOutputs
      rw [hu]
      rfl
    have hnodup : (u :: us).Nodup := hu ▸ unusedOutputs_nodup honodup
    have hmemu : ∀ r ∈ us.reverse, r ∈ unusedOutputs h node := by
      intro r hr
      rw [hu]
      exact List.mem_cons_of_mem _ (List.mem_reverse.mp hr)
    obtain ⟨hconnF, hlkF, node2, hn2, ho2⟩ := foldl_remove_props us.reverse h N node
      (by
        intro r hr
        obtain ⟨o, ho, hor⟩ := mem_outputs_of_mem_unused (hmemu r hr)
        rw [← hor]
        exact hown o ho)
      (fun r hr => not_connected_of_mem_unused (hmemu r hr))
      (List.nodup_reverse.mpr (List.nodup_cons.mp hnodup).2)
      hn
    rw [hadj]
    refine ⟨node2, hn2, ?_⟩
    unfold unconnectedFlowOutputs
    rw [ho2, List.filter_filter]
    have hpt : ∀ o ∈ node.outputs,
        (((((us.reverse.foldl remove_output_param h).outputs.lookup o.2).map
              OutputParam.typ == some BehaviorDataType.Flow) &&
            !(isConnected (us.reverse.foldl remove_output_param h) o.2)) &&
          !(us.reverse.contains o.2)) =
        (!(us.contains o.2) && !(isConnected h o.2)) := by
      intro o ho
      have hic : isConnected (us.reverse.foldl remove_output_param h) o.2 =
          isConnected h o.2 := isConnected_congr hconnF o.2
      by_cases hmem : o.2 ∈ us
      · simp [hmem, List.mem_reverse]
      · have hlk2 : (us.reverse.foldl remove_output_param h).outputs.lookup o.2 =
            h.outputs.lookup o.2 := hlkF o.2 (by simp [List.mem_reverse, hmem])
        rw [hlk2, hic, hflow o ho]
        simp [hmem, List.mem_reverse]
    rw [List.filter_congr hpt]
    rw [← List.filter_filter]
    have hmap : (node.outputs.filter fun o => !(isConnected h o.2)).map Prod.snd =
        u :: us := by
      unfold unusedOutputs at hu
      exact hu
    rw [filter_not_contains_tail hmap hnodup]
    rfl


theorem mem_of_mem_insertConn {l : List (Nat × Nat)} {i o : Nat} {c : Nat × Nat}
    (h : c ∈ insertConn l i o) : c = (i, o) ∨ c ∈ l := by
  induction l with
  | nil => simpa [insertConn] using h
  | cons d rest ih =>
    simp only [insertConn] at h
    split at h
    · rcases List.mem_cons.mp h with h1 | h1
      · exact .inl h1
      · exact .inr h1
    · split at h
      · rcases List.mem_cons.mp h with h1 | h1
        · exact .inl h1
        · exact .inr (List.mem_cons_of_mem _ h1)
      · rcases List.mem_cons.mp h with h1 | h1
        · exact .inr (List.mem_cons.mpr (.inl h1))
        · rcases ih h1 with h2 | h2
          · exact .inl h2
          · exact .inr (List.mem_cons_of_mem _ h2)

/-- Counterexample to C1 as stated: in the sample graph the Composite node 1
(payload Selector) has exactly one unconnected Flow output port; after a
single disconnect event — which the response loop leaves to its wildcard arm,
running no re-balancing — it has two. -/
theorem composite_invariant_broken_by_disconnect :
    (∃ node, sampleComposite.nodes.lookup 1 = some node ∧
      node.user_data.data = .Behavior TestBehavior.sel ∧
      BehaviorFactory.typ TestBehavior.sel = BehaviorType.Composite ∧
      (unconnectedFlowOutputs sampleComposite node).length = 1) ∧
    (∃ node, (disconnectEvent sampleComposite 20).nodes.lookup 1 = some node ∧
      (unconnectedFlowOutputs (disconnectEvent sampleComposite 20) node).length = 2) := by
  constructor
  · exact ⟨_, rfl, rfl, rfl, rfl⟩
  · exact ⟨_, rfl, rfl⟩

/-- C1 (amended): immediately after a connect event completed at an output
owned by a Composite behavior node whose outputs are all Flow-typed (on a
well-formed graph), that node has exactly one unconnected Flow output port;
disconnect events run no re-balancing and can leave a Composite node with
more than one unconnected Flow output. -/
theorem connect_event_composite_has_one_unconnected_output [BehaviorFactory T]
    {g g' : Graph T} {outputId inputId : Nat} {op : OutputParam} {node : Node T}
    {b : T}
    (hop : g.outputs.lookup outputId = some op)
    (hnode : g.nodes.lookup op.node = some node)
    (hdata : node.user_data.data = .Behavior b)
    (hcomp : BehaviorFactory.typ b = .Composite)
    (honodup : (node.outputs.map Prod.snd).Nodup)
    (hown : ∀ o ∈ node.outputs,
      (g.outputs.lookup o.2).map OutputParam.node = some op.node)
    (hflow : ∀ o ∈ node.outputs,
      (g.outputs.lookup o.2).map OutputParam.typ = some BehaviorDataType.Flow)
    (hct : ∀ c ∈ g.connections, (g.outputs.lookup c.2).isSome = true)
    (hconn : connectEvent g outputId inputId = some g') :
    ∃ node2, g'.nodes.lookup op.node = some node2 ∧
      (unconnectedFlowOutputs g' node2).length = 1 := by
  unfold connectEvent connectEventEnded at hconn
  simp only [removeOtherInputs_outputs, insertConnection_outputs, hop,
    removeOtherInputs_nodes, insertConnection_nodes, hnode, hdata, hcomp,
    beq_self_eq_true, if_true] at hconn
  injection hconn with hg
  subst hg
  apply adjustCompositeOutputs_one_unconnected
  · exact hnode
  · exact honodup
  · exact hown
  · exact hflow
  · intro c hc
    have hc2 := (List.mem_filter.mp hc).1
    rcases mem_of_mem_insertConn hc2 with he | he
    · rw [he]
      show (g.outputs.lookup outputId).isSome = true
      rw [hop]
      rfl
    · exact hct c he

/-- Witness for the amended C1 at the concrete sample: after connecting output
11 into input 21, Composite node 1 again has exactly one unconnected Flow
output (the freshly added output 12). -/
theorem connect_event_composite_has_one_unconnected_output_witness :
    ∃ node2, sampleCompositeConnected.nodes.lookup 1 = some node2 ∧
      (unconnectedFlowOutputs sampleCompositeConnected node2).length = 1 :=
  connect_event_composite_has_one_unconnected_output (g := sampleComposite)
    (show sampleComposite.outputs.lookup 11 =
      some { node := 1, typ := BehaviorDataType.Flow } from rfl)
    (show sampleComposite.nodes.lookup 1 =
      some { label := "S", user_data := { data := .Behavior TestBehavior.sel, state := none },
             inputs := [], outputs := [("B", 10), ("B", 11)] } from rfl)
    rfl rfl (by decide) (by decide) (by decide) (by decide)
    (show connectEvent sampleComposite 11 21 = some sampleCompositeConnected by decide)

end Inspector
